import Mathlib

/-!
Verification of the equation-of-state / automatic-differentiation script.

The script defines a Peng–Robinson-like pressure function
`P(T, v) = 8.314*T/(v - 8.09e-5) - 29.08/(T**0.5 * v * (v + 8.09e-5))`,
evaluates it on a numpy grid and on torch tensors, and obtains first- and
second-order derivatives with `torch.autograd.grad` (with `create_graph=True`
and `allow_unused=True`), cross-checking the first-order derivatives against
hand-derived symbolic expressions with `np.allclose`.

The embedding:
* `pressure`, `dP_by_dT`, `dP_by_dv` are the three Python functions, read as
  real-valued functions (the numeric backend semantics of the arithmetic).
* `Expr` is the computation graph the differentiable backend builds for the
  same source expression; `Expr.eval` evaluates it, `Expr.diff` is the
  derivative graph the reverse-mode engine constructs (exact chain rule,
  as the engine computes exact derivatives), `Expr.usesVar` records whether
  an input occurs in the graph, and `autogradGrad` is the gradient entry
  point including the `allow_unused` behaviour.
* `Expr.evalChecked` is evaluation that fails (returns `none`) on a zero
  divisor or an illegal power base, the events that produce inf/NaN in
  floating point; it is used to state well-definedness claims.
* `arange` / `linspace` are the numpy grid constructors on exact rationals.
-/

/-- The two differentiable inputs of the script, `T` and `v`. -/
inductive Var where
  | T : Var
  | V : Var
deriving DecidableEq

/-- Computation graph built by the differentiable backend: constants,
the two input leaves, elementwise arithmetic, and power by a constant
real exponent (the only power forms the script uses). -/
inductive Expr where
  | const : ℝ → Expr
  | var : Var → Expr
  | add : Expr → Expr → Expr
  | sub : Expr → Expr → Expr
  | mul : Expr → Expr → Expr
  | div : Expr → Expr → Expr
  | rpowc : Expr → ℝ → Expr

/-- Evaluate a graph at inputs `t` (temperature) and `v` (molar volume). -/
noncomputable def Expr.eval (e : Expr) (t v : ℝ) : ℝ :=
  match e with
  | .const c => c
  | .var .T => t
  | .var .V => v
  | .add a b => a.eval t v + b.eval t v
  | .sub a b => a.eval t v - b.eval t v
  | .mul a b => a.eval t v * b.eval t v
  | .div a b => a.eval t v / b.eval t v
  | .rpowc a p => a.eval t v ^ p

/-- The derivative graph the differentiation engine constructs for `e`
with respect to input `x` (`create_graph=True` keeps it a graph, so it
can be differentiated again).  Standard reverse-mode chain rule for each
node kind. -/
def Expr.diff (e : Expr) (x : Var) : Expr :=
  match e with
  | .const _ => .const 0
  | .var y => if x = y then .const 1 else .const 0
  | .add a b => .add (a.diff x) (b.diff x)
  | .sub a b => .sub (a.diff x) (b.diff x)
  | .mul a b => .add (.mul (a.diff x) b) (.mul a (b.diff x))
  | .div a b => .div (.sub (.mul (a.diff x) b) (.mul a (b.diff x))) (.mul b b)
  | .rpowc a p => .mul (.mul (.const p) (.rpowc a (p - 1))) (a.diff x)

/-- Whether input `x` occurs in the computation graph `e`. -/
def Expr.usesVar (e : Expr) (x : Var) : Bool :=
  match e with
  | .const _ => false
  | .var y => decide (x = y)
  | .add a b => a.usesVar x || b.usesVar x
  | .sub a b => a.usesVar x || b.usesVar x
  | .mul a b => a.usesVar x || b.usesVar x
  | .div a b => a.usesVar x || b.usesVar x
  | .rpowc a _ => a.usesVar x

/-- Checked evaluation: `none` exactly when some division has a zero
denominator or some power has a negative base, or a zero base with a
negative exponent — the events that yield inf/NaN in the floating-point
run.  Otherwise it returns the value of `Expr.eval`. -/
noncomputable def Expr.evalChecked (e : Expr) (t v : ℝ) : Option ℝ :=
  match e with
  | .const c => some c
  | .var .T => some t
  | .var .V => some v
  | .add a b =>
      match a.evalChecked t v, b.evalChecked t v with
      | some x, some y => some (x + y)
      | _, _ => none
  | .sub a b =>
      match a.evalChecked t v, b.evalChecked t v with
      | some x, some y => some (x - y)
      | _, _ => none
  | .mul a b =>
      match a.evalChecked t v, b.evalChecked t v with
      | some x, some y => some (x * y)
      | _, _ => none
  | .div a b =>
      match a.evalChecked t v, b.evalChecked t v with
      | some x, some y => if y = 0 then none else some (x / y)
      | _, _ => none
  | .rpowc a p =>
      match a.evalChecked t v with
      | some x => if 0 < x ∨ (x = 0 ∧ 0 ≤ p) then some (x ^ p) else none
      | none => none

/-- A graph is safe at `(t, v)` when every division it performs there has a
nonzero denominator and every power base is positive. -/
inductive SafeAt (t v : ℝ) : Expr → Prop where
  | const (c : ℝ) : SafeAt t v (.const c)
  | var (x : Var) : SafeAt t v (.var x)
  | add {a b : Expr} : SafeAt t v a → SafeAt t v b → SafeAt t v (.add a b)
  | sub {a b : Expr} : SafeAt t v a → SafeAt t v b → SafeAt t v (.sub a b)
  | mul {a b : Expr} : SafeAt t v a → SafeAt t v b → SafeAt t v (.mul a b)
  | div {a b : Expr} : SafeAt t v a → SafeAt t v b → b.eval t v ≠ 0 →
      SafeAt t v (.div a b)
  | rpowc {a : Expr} {p : ℝ} : SafeAt t v a → 0 < a.eval t v →
      SafeAt t v (.rpowc a p)

lemma evalChecked_eq_eval {t v : ℝ} {e : Expr} (h : SafeAt t v e) :
    e.evalChecked t v = some (e.eval t v) := by
  induction h with
  | const c => rfl
  | var x => cases x <;> rfl
  | add _ _ iha ihb => simp [Expr.evalChecked, Expr.eval, iha, ihb]
  | sub _ _ iha ihb => simp [Expr.evalChecked, Expr.eval, iha, ihb]
  | mul _ _ iha ihb => simp [Expr.evalChecked, Expr.eval, iha, ihb]
  | div _ _ hne iha ihb => simp [Expr.evalChecked, Expr.eval, iha, ihb, hne]
  | rpowc _ hpos iha => simp [Expr.evalChecked, Expr.eval, iha, hpos]

lemma safeAt_diff {t v : ℝ} {e : Expr} (x : Var) (h : SafeAt t v e) :
    SafeAt t v (e.diff x) := by
  induction h with
  | const c => exact .const 0
  | var y =>
      by_cases hxy : x = y
      · simp only [Expr.diff, if_pos hxy]; exact .const 1
      · simp only [Expr.diff, if_neg hxy]; exact .const 0
  | add _ _ iha ihb => exact .add iha ihb
  | sub _ _ iha ihb => exact .sub iha ihb
  | mul ha hb iha ihb => exact .add (.mul iha hb) (.mul ha ihb)
  | div ha hb hne iha ihb =>
      exact .div (.sub (.mul iha hb) (.mul ha ihb)) (.mul hb hb)
        (by simpa [Expr.eval] using mul_ne_zero hne hne)
  | rpowc ha hpos iha =>
      exact .mul (.mul (.const _) (.rpowc ha hpos)) iha

/-- The gradient entry point: `autogradGrad allowUnused e xs` models
`torch.autograd.grad([sum of e], xs, allow_unused=allowUnused)` for the
elementwise graph `e`.  If some requested input does not occur in the
graph and `allowUnused` is off, the engine raises (`none`); otherwise it
returns, for each requested input, the derivative graph, or an absent
(`none`) entry for an unused input. -/
def autogradGrad (allowUnused : Bool) (e : Expr) (xs : List Var) :
    Option (List (Option Expr)) :=
  if xs.all (fun x => e.usesVar x || allowUnused) then
    some (xs.map fun x => if e.usesVar x then some (e.diff x) else none)
  else none

/-- `def pressure(T, v): return 8.314 * T / (v - 8.09e-5) - 29.08 / (T**(0.5) * v * (v + 8.09e-5))`,
read as a real-valued function (the numeric backend). -/
noncomputable def pressure (T v : ℝ) : ℝ :=
  8.314 * T / (v - 8.09e-5) - 29.08 / (T ^ (0.5 : ℝ) * v * (v + 8.09e-5))

/-- The computation graph the differentiable backend builds for the same
source expression `8.314 * T / (v - 8.09e-5) - 29.08 / (T**(0.5) * v * (v + 8.09e-5))`. -/
noncomputable def pressureExpr : Expr :=
  .sub (.div (.mul (.const 8.314) (.var .T)) (.sub (.var .V) (.const 8.09e-5)))
    (.div (.const 29.08)
      (.mul (.mul (.rpowc (.var .T) 0.5) (.var .V)) (.add (.var .V) (.const 8.09e-5))))

/-- `def dP_by_dT(T, v): return 8.314 / (v - 8.09e-5) + 29.08 / (2 * T**(3 / 2) * v * (v + 8.09e-5))`,
the hand-derived symbolic reference for the temperature derivative. -/
noncomputable def dP_by_dT (T v : ℝ) : ℝ :=
  8.314 / (v - 8.09e-5) + 29.08 / (2 * T ^ ((3 : ℝ) / 2) * v * (v + 8.09e-5))

/-- `def dP_by_dv(T, v)`: symbolic reference for the volume derivative,
`-8.314 * T / (v - 8.09e-5)**2 + 29.08 * (2 * v + 8.09e-5) / (T**(1 / 2) * v**2 * (v + 8.09e-5)**2)`. -/
noncomputable def dP_by_dv (T v : ℝ) : ℝ :=
  -8.314 * T / (v - 8.09e-5) ^ 2 +
    29.08 * (2 * v + 8.09e-5) / (T ^ ((1 : ℝ) / 2) * v ^ 2 * (v + 8.09e-5) ^ 2)

/-- The spec's formula `P = R·T/(v − b) − a/(√T · v · (v + b))` with the
constants `a = 29.08`, `b = 8.09e-5`, `R = 8.314` filled in literally. -/
noncomputable def specPressure (T v : ℝ) : ℝ :=
  8.314 * T / (v - 8.09e-5) - 29.08 / (Real.sqrt T * v * (v + 8.09e-5))

/-- `np.allclose` on equal-length arrays with numpy's default tolerances
`rtol = 1e-5`, `atol = 1e-8`: elementwise `|a - b| <= atol + rtol * |b|`. -/
def allclose (xs ys : List ℝ) : Prop :=
  List.Forall₂ (fun a b => |a - b| ≤ 1e-8 + 1e-5 * |b|) xs ys

/-- `np.arange(start, stop, step)`: half-open range, `ceil((stop-start)/step)`
points `start + i*step`, on exact rationals. -/
def arange (start stop step : ℚ) : List ℚ :=
  (List.range (Int.ceil ((stop - start) / step)).toNat).map
    fun i => start + (i : ℚ) * step

/-- `np.linspace(start, stop, num)`: `num` points `start + i*(stop-start)/(num-1)`,
endpoint included, on exact rationals. -/
def linspace (start stop : ℚ) (num : ℕ) : List ℚ :=
  (List.range num).map fun i => start + (i : ℚ) * ((stop - start) / ((num : ℚ) - 1))

/-- `T = np.arange(25 + 273.15, 100 + 273.15, 15)`. -/
def Tgrid : List ℚ := arange (25 + 273.15) (100 + 273.15) 15

/-- `v = np.linspace(1.27e-3, 2.59e-3, T.shape[0])`. -/
def vgrid : List ℚ := linspace 1.27e-3 2.59e-3 Tgrid.length

/-- The temperature grid as real numbers. -/
noncomputable def TgridR : List ℝ := Tgrid.map fun q => (q : ℝ)

/-- The molar-volume grid as real numbers. -/
noncomputable def vgridR : List ℝ := vgrid.map fun q => (q : ℝ)

lemma Tgrid_eq : Tgrid = [298.15, 313.15, 328.15, 343.15, 358.15] := by
  unfold Tgrid arange
  have h : (Int.ceil (((100:ℚ) + 273.15 - (25 + 273.15)) / 15)).toNat = 5 := by norm_num; rfl
  rw [h]
  simp only [List.range_succ, List.range_zero, List.map_append, List.map_cons, List.map_nil,
    List.nil_append, List.cons_append, List.append_nil]
  norm_num

lemma Tgrid_len : Tgrid.length = 5 := by rw [Tgrid_eq]; rfl

lemma vgrid_eq : vgrid = [1.27e-3, 1.6e-3, 1.93e-3, 2.26e-3, 2.59e-3] := by
  unfold vgrid linspace
  rw [Tgrid_len]
  simp only [List.range_succ, List.range_zero, List.map_append, List.map_cons, List.map_nil,
    List.nil_append, List.cons_append, List.append_nil]
  norm_num

lemma TgridR_eq :
    TgridR = [(298.15 : ℝ), 313.15, 328.15, 343.15, 358.15] := by
  rw [TgridR, Tgrid_eq]
  norm_num

lemma vgridR_eq :
    vgridR = [(1.27e-3 : ℝ), 1.6e-3, 1.93e-3, 2.26e-3, 2.59e-3] := by
  rw [vgridR, vgrid_eq]
  norm_num

/-- `np_pres = pressure(T, v)` on the numpy grid: elementwise numeric evaluation. -/
noncomputable def np_presL : List ℝ := List.zipWith pressure TgridR vgridR

/-- `tc_pres = pressure(T, v)` on the torch tensors: elementwise evaluation of
the computation graph. -/
noncomputable def tc_presL : List ℝ :=
  List.zipWith (fun t v => pressureExpr.eval t v) TgridR vgridR

/-- First-order gradient pass of the script:
`torch.autograd.grad([tc_pres.sum()], [T, v], retain_graph=True, create_graph=True, allow_unused=True)`. -/
noncomputable def firstOrderCall : Option (List (Option Expr)) :=
  autogradGrad true pressureExpr [Var.T, Var.V]

/-- Second-order pass on `dPdT`:
`torch.autograd.grad([dPdT.sum()], [T, v], ..., allow_unused=True)`. -/
noncomputable def secondOrderCallT : Option (List (Option Expr)) :=
  autogradGrad true (pressureExpr.diff Var.T) [Var.T, Var.V]

/-- Second-order pass on `dPdv`:
`torch.autograd.grad([dPdv.sum()], [T, v], ..., allow_unused=True)`. -/
noncomputable def secondOrderCallV : Option (List (Option Expr)) :=
  autogradGrad true (pressureExpr.diff Var.V) [Var.T, Var.V]

/-- The automatic `dP/dT` array on the grid. -/
noncomputable def dPdT_L : List ℝ :=
  List.zipWith (fun t v => (pressureExpr.diff Var.T).eval t v) TgridR vgridR

/-- The automatic `dP/dv` array on the grid. -/
noncomputable def dPdv_L : List ℝ :=
  List.zipWith (fun t v => (pressureExpr.diff Var.V).eval t v) TgridR vgridR

/-- The symbolic-reference `dP_by_dT(T, v)` array on the grid. -/
noncomputable def sym_dPdT_L : List ℝ := List.zipWith dP_by_dT TgridR vgridR

/-- The symbolic-reference `dP_by_dv(T, v)` array on the grid. -/
noncomputable def sym_dPdv_L : List ℝ := List.zipWith dP_by_dv TgridR vgridR

/-- Second-order array: gradient of `dPdT.sum()` with respect to `T`. -/
noncomputable def d2TT_L : List ℝ :=
  List.zipWith (fun t v => ((pressureExpr.diff Var.T).diff Var.T).eval t v) TgridR vgridR

/-- Second-order array: gradient of `dPdT.sum()` with respect to `v`. -/
noncomputable def d2Tv_L : List ℝ :=
  List.zipWith (fun t v => ((pressureExpr.diff Var.T).diff Var.V).eval t v) TgridR vgridR

/-- Second-order array: gradient of `dPdv.sum()` with respect to `T`. -/
noncomputable def d2vT_L : List ℝ :=
  List.zipWith (fun t v => ((pressureExpr.diff Var.V).diff Var.T).eval t v) TgridR vgridR

/-- Second-order array: gradient of `dPdv.sum()` with respect to `v`. -/
noncomputable def d2vv_L : List ℝ :=
  List.zipWith (fun t v => ((pressureExpr.diff Var.V).diff Var.V).eval t v) TgridR vgridR

/-- One item written to standard output: an array, a stacked pair of arrays
(`torch.stack` of the two gradient results), or a printed boolean reporting
whether a comparison holds. -/
inductive OutItem where
  | arr : List ℝ → OutItem
  | mat : List (List ℝ) → OutItem
  | flag : Prop → OutItem

/-- Everything the script prints, one entry per `print` statement, in source
order: numeric pressure, differentiable pressure, the pressure-equivalence
boolean, `dP/dT`, `dP/dv`, the two first-order-equivalence booleans, then the
stacked second-order results for `dP/dT` and for `dP/dv`. -/
noncomputable def programOutput : List OutItem :=
  [.arr np_presL,
   .arr tc_presL,
   .flag (allclose tc_presL np_presL),
   .arr dPdT_L,
   .arr dPdv_L,
   .flag (allclose dPdT_L sym_dPdT_L),
   .flag (allclose dPdv_L sym_dPdv_L),
   .mat [d2TT_L, d2Tv_L],
   .mat [d2vT_L, d2vv_L]]

lemma zipWith_congr_of_mem {α β γ : Type} (f g : α → β → γ) :
    ∀ (l₁ : List α) (l₂ : List β),
      (∀ p ∈ l₁.zip l₂, f p.1 p.2 = g p.1 p.2) →
      List.zipWith f l₁ l₂ = List.zipWith g l₁ l₂ := by
  intro l₁
  induction l₁ with
  | nil => intro l₂ _; rfl
  | cons a l ih =>
      intro l₂ h
      cases l₂ with
      | nil => rfl
      | cons b m =>
          simp only [List.zipWith_cons_cons]
          refine congrArg₂ _ (h (a, b) (by simp)) (ih m ?_)
          intro p hp
          exact h p (by simp [hp])

lemma allclose_refl (xs : List ℝ) : allclose xs xs := by
  rw [allclose, List.forall₂_same]
  intro x _
  rw [sub_self, abs_zero]
  positivity

lemma allclose_of_eq {xs ys : List ℝ} (h : xs = ys) : allclose xs ys := by
  rw [h]; exact allclose_refl ys

lemma pressureExpr_eval (t v : ℝ) : pressureExpr.eval t v = pressure t v := by
  simp [pressureExpr, Expr.eval, pressure]

lemma pressure_eq_specPressure (t v : ℝ) : pressure t v = specPressure t v := by
  rw [pressure, specPressure, Real.sqrt_eq_rpow,
    show (1 / (2:ℝ)) = (0.5:ℝ) by norm_num]

lemma safeAt_pressureExpr {t v : ℝ} (ht : 0 < t) (hv : 0 < v)
    (hvb : 8.09e-5 < v) : SafeAt t v pressureExpr := by
  have hvb' : v - 8.09e-5 ≠ 0 := sub_ne_zero.mpr (ne_of_gt hvb)
  have hvpb : (0:ℝ) < v + 8.09e-5 := by linarith
  have hs : 0 < t ^ (0.5:ℝ) := Real.rpow_pos_of_pos ht _
  refine .sub (.div (.mul (.const _) (.var _)) (.sub (.var _) (.const _)) ?_)
    (.div (.const _)
      (.mul (.mul (.rpowc (.var _) ?_) (.var _)) (.add (.var _) (.const _))) ?_)
  · simpa [Expr.eval] using hvb'
  · simpa [Expr.eval] using ht
  · show (Expr.mul _ _).eval t v ≠ 0
    simp only [Expr.eval]
    exact ne_of_gt (by positivity)

lemma diff_T_eval {t v : ℝ} (ht : 0 < t) (hv : 0 < v) (hvb : 8.09e-5 < v) :
    (pressureExpr.diff Var.T).eval t v = dP_by_dT t v := by
  have hvb' : v - 8.09e-5 ≠ 0 := sub_ne_zero.mpr (ne_of_gt hvb)
  have hvpb : v + 8.09e-5 ≠ 0 := ne_of_gt (by linarith)
  have h05 : t ^ ((0.5:ℝ) - 1) = (t ^ (0.5:ℝ))⁻¹ := by
    rw [show ((0.5:ℝ) - 1) = -(0.5) by norm_num, Real.rpow_neg ht.le]
  have h32 : t ^ ((3:ℝ)/2) = t * t ^ (0.5:ℝ) := by
    rw [show ((3:ℝ)/2) = 1 + 0.5 by norm_num, Real.rpow_add ht, Real.rpow_one]
  have hss : t ^ (0.5:ℝ) * t ^ (0.5:ℝ) = t := by
    rw [← Real.rpow_add ht]; norm_num
  have hs : 0 < t ^ (0.5:ℝ) := Real.rpow_pos_of_pos ht _
  simp [pressureExpr, Expr.diff, Expr.eval, dP_by_dT]
  rw [h05, h32]
  generalize t ^ (0.5:ℝ) = s at hss hs
  rw [← hss]
  field_simp
  ring

lemma diff_V_eval {t v : ℝ} (ht : 0 < t) (hv : 0 < v) (hvb : 8.09e-5 < v) :
    (pressureExpr.diff Var.V).eval t v = dP_by_dv t v := by
  have hvb' : v - 8.09e-5 ≠ 0 := sub_ne_zero.mpr (ne_of_gt hvb)
  have hvpb : v + 8.09e-5 ≠ 0 := ne_of_gt (by linarith)
  have hss : t ^ (0.5:ℝ) * t ^ (0.5:ℝ) = t := by
    rw [← Real.rpow_add ht]; norm_num
  have hs : 0 < t ^ (0.5:ℝ) := Real.rpow_pos_of_pos ht _
  simp [pressureExpr, Expr.diff, Expr.eval, dP_by_dv]
  rw [show ((2:ℝ))⁻¹ = (0.5:ℝ) by norm_num]
  generalize t ^ (0.5:ℝ) = s at hss hs
  rw [← hss]
  field_simp
  ring

lemma mixed_second_eval {t v : ℝ} (ht : 0 < t) (hv : 0 < v) (hvb : 8.09e-5 < v) :
    ((pressureExpr.diff Var.T).diff Var.V).eval t v =
      ((pressureExpr.diff Var.V).diff Var.T).eval t v := by
  have hvb' : v - 8.09e-5 ≠ 0 := sub_ne_zero.mpr (ne_of_gt hvb)
  have hvpb : v + 8.09e-5 ≠ 0 := ne_of_gt (by linarith)
  have h05 : t ^ ((0.5:ℝ) - 1) = (t ^ (0.5:ℝ))⁻¹ := by
    rw [show ((0.5:ℝ) - 1) = -(0.5) by norm_num, Real.rpow_neg ht.le]
  have hs : 0 < t ^ (0.5:ℝ) := Real.rpow_pos_of_pos ht _
  simp [pressureExpr, Expr.diff, Expr.eval]
  rw [h05]
  generalize t ^ (0.5:ℝ) = s at hs
  field_simp
  ring

lemma zipWith_map_some {α β γ : Type} (f : α → β → γ) :
    ∀ (l₁ : List α) (l₂ : List β),
      (List.zipWith f l₁ l₂).map some = List.zipWith (fun a b => some (f a b)) l₁ l₂ := by
  intro l₁
  induction l₁ with
  | nil => intro l₂; rfl
  | cons a l ih =>
      intro l₂
      cases l₂ with
      | nil => rfl
      | cons b m => simp [ih m]

lemma grid_conditions :
    ∀ p ∈ TgridR.zip vgridR, 0 < p.1 ∧ 0 < p.2 ∧ 8.09e-5 < p.2 := by
  rw [TgridR_eq, vgridR_eq]
  intro p hp
  simp only [List.zip_cons_cons, List.zip_nil_left, List.mem_cons,
    List.not_mem_nil, or_false] at hp
  rcases hp with rfl | rfl | rfl | rfl | rfl <;> norm_num

lemma autogradGrad_true_eq (e : Expr) (xs : List Var) :
    autogradGrad true e xs =
      some (xs.map fun x => if e.usesVar x then some (e.diff x) else none) := by
  simp [autogradGrad]

/-- C1: For every temperature array `T` and molar-volume array `v` of equal
length with `T > 0`, `v > 0`, `v > b` and `v + b ≠ 0` elementwise, the
equation evaluator returns pressure computed elementwise as
`P = R*T/(v - b) - a/(sqrt(T)*v*(v + b))` with `a = 29.08`, `b = 8.09e-5`,
`R = 8.314`. -/
theorem pressure_matches_spec_formula (Ts vs : List ℝ)
    (hlen : Ts.length = vs.length)
    (h : ∀ p ∈ Ts.zip vs, 0 < p.1 ∧ 0 < p.2 ∧ 8.09e-5 < p.2 ∧ p.2 + 8.09e-5 ≠ 0) :
    List.zipWith pressure Ts vs = List.zipWith specPressure Ts vs :=
  zipWith_congr_of_mem _ _ _ _ fun p _ => pressure_eq_specPressure p.1 p.2

/-- Witness for C1 at `T = [300]`, `v = [1e-3]`. -/
theorem pressure_matches_spec_formula_witness :
    List.zipWith pressure [(300:ℝ)] [(1e-3:ℝ)] =
      List.zipWith specPressure [(300:ℝ)] [(1e-3:ℝ)] :=
  pressure_matches_spec_formula [300] [1e-3] rfl (by
    intro p hp
    simp only [List.zip_cons_cons, List.zip_nil_left, List.mem_cons,
      List.not_mem_nil, or_false] at hp
    subst hp
    norm_num)

/-- C2: On every valid grid (`T > 0`, `v > 0`, `v > b` elementwise) the
automatic first-order derivative arrays agree with the symbolic-reference
functions `dP_by_dT` / `dP_by_dv` (in fact exactly, hence within the
`np.allclose` tolerance): both first-order equivalence checks hold. -/
theorem first_order_autodiff_matches_symbolic (Ts vs : List ℝ)
    (h : ∀ p ∈ Ts.zip vs, 0 < p.1 ∧ 0 < p.2 ∧ 8.09e-5 < p.2) :
    allclose (List.zipWith (fun t v => (pressureExpr.diff Var.T).eval t v) Ts vs)
        (List.zipWith dP_by_dT Ts vs) ∧
      allclose (List.zipWith (fun t v => (pressureExpr.diff Var.V).eval t v) Ts vs)
        (List.zipWith dP_by_dv Ts vs) := by
  refine ⟨allclose_of_eq (zipWith_congr_of_mem _ _ _ _ fun p hp => ?_),
    allclose_of_eq (zipWith_congr_of_mem _ _ _ _ fun p hp => ?_)⟩
  · exact diff_T_eval (h p hp).1 (h p hp).2.1 (h p hp).2.2
  · exact diff_V_eval (h p hp).1 (h p hp).2.1 (h p hp).2.2

/-- Witness for C2 at `T = [300]`, `v = [1e-3]`. -/
theorem first_order_autodiff_matches_symbolic_witness :
    allclose (List.zipWith (fun t v => (pressureExpr.diff Var.T).eval t v) [(300:ℝ)] [(1e-3:ℝ)])
        (List.zipWith dP_by_dT [(300:ℝ)] [(1e-3:ℝ)]) ∧
      allclose (List.zipWith (fun t v => (pressureExpr.diff Var.V).eval t v) [(300:ℝ)] [(1e-3:ℝ)])
        (List.zipWith dP_by_dv [(300:ℝ)] [(1e-3:ℝ)]) :=
  first_order_autodiff_matches_symbolic [300] [1e-3] (by
    intro p hp
    simp only [List.zip_cons_cons, List.zip_nil_left, List.mem_cons,
      List.not_mem_nil, or_false] at hp
    subst hp
    norm_num)

/-- C3: On every valid grid with `v > b`, the numeric-backend evaluation and
the differentiable-backend evaluation of the same pressure function give
elementwise approximately equal arrays (in fact identical values). -/
theorem backend_pressures_allclose (Ts vs : List ℝ)
    (h : ∀ p ∈ Ts.zip vs, 8.09e-5 < p.2) :
    allclose (List.zipWith (fun t v => pressureExpr.eval t v) Ts vs)
      (List.zipWith pressure Ts vs) :=
  allclose_of_eq (zipWith_congr_of_mem _ _ _ _ fun p _ => pressureExpr_eval p.1 p.2)

/-- Witness for C3 at `T = [300]`, `v = [1e-3]`. -/
theorem backend_pressures_allclose_witness :
    allclose (List.zipWith (fun t v => pressureExpr.eval t v) [(300:ℝ)] [(1e-3:ℝ)])
      (List.zipWith pressure [(300:ℝ)] [(1e-3:ℝ)]) :=
  backend_pressures_allclose [300] [1e-3] (by
    intro p hp
    simp only [List.zip_cons_cons, List.zip_nil_left, List.mem_cons,
      List.not_mem_nil, or_false] at hp
    subst hp
    norm_num)

/-- C4: Under the (unchecked) domain precondition `T > 0`, `v > 0`, `v > b`,
`v + b ≠ 0`, every division performed by the pressure evaluation has a
nonzero denominator and the root has a nonnegative radicand, so the checked
evaluation succeeds and returns the pressure value — no division-by-zero
failure is reachable.  The evaluator itself (`pressure` / `pressureExpr`)
is a total function that never tests this precondition. -/
theorem pressure_welldefined_under_precondition (t v : ℝ) (ht : 0 < t)
    (hv : 0 < v) (hvb : 8.09e-5 < v) (hvpb : v + 8.09e-5 ≠ 0) :
    (v - 8.09e-5 ≠ 0 ∧ t ^ (0.5:ℝ) * v * (v + 8.09e-5) ≠ 0 ∧ 0 ≤ t) ∧
      pressureExpr.evalChecked t v = some (pressure t v) := by
  have hs : 0 < t ^ (0.5:ℝ) := Real.rpow_pos_of_pos ht _
  refine ⟨⟨sub_ne_zero.mpr (ne_of_gt hvb),
    ne_of_gt (mul_pos (mul_pos hs hv) (by linarith)), ht.le⟩, ?_⟩
  rw [evalChecked_eq_eval (safeAt_pressureExpr ht hv hvb), pressureExpr_eval]

/-- Witness for C4 at `T = 300`, `v = 1e-3`. -/
theorem pressure_welldefined_under_precondition_witness :
    ((1e-3:ℝ) - 8.09e-5 ≠ 0 ∧ (300:ℝ) ^ (0.5:ℝ) * 1e-3 * (1e-3 + 8.09e-5) ≠ 0 ∧ (0:ℝ) ≤ 300) ∧
      pressureExpr.evalChecked 300 1e-3 = some (pressure 300 1e-3) :=
  pressure_welldefined_under_precondition 300 1e-3 (by norm_num) (by norm_num)
    (by norm_num) (by norm_num)

/-- C5: The script's concrete grid is `T = [298.15, 313.15, 328.15, 343.15,
358.15]` (arange is half-open, so 373.15 is excluded) and `v` is the 5 evenly
spaced values spanning `[1.27e-3, 2.59e-3]`; the two sequences have equal
length 5, and on this grid all three equivalence checks hold. -/
theorem concrete_grid_and_checks :
    Tgrid = [298.15, 313.15, 328.15, 343.15, 358.15] ∧
      vgrid = [1.27e-3, 1.6e-3, 1.93e-3, 2.26e-3, 2.59e-3] ∧
      Tgrid.length = vgrid.length ∧ Tgrid.length = 5 ∧
      allclose tc_presL np_presL ∧
      allclose dPdT_L sym_dPdT_L ∧
      allclose dPdv_L sym_dPdv_L := by
  refine ⟨Tgrid_eq, vgrid_eq, ?_, Tgrid_len, ?_, ?_, ?_⟩
  · rw [Tgrid_len, vgrid_eq]; rfl
  · exact allclose_of_eq
      (zipWith_congr_of_mem _ _ _ _ fun p _ => pressureExpr_eval p.1 p.2)
  · exact allclose_of_eq (zipWith_congr_of_mem _ _ _ _ fun p hp =>
      diff_T_eval (grid_conditions p hp).1 (grid_conditions p hp).2.1
        (grid_conditions p hp).2.2)
  · exact allclose_of_eq (zipWith_congr_of_mem _ _ _ _ fun p hp =>
      diff_V_eval (grid_conditions p hp).1 (grid_conditions p hp).2.1
        (grid_conditions p hp).2.2)

/-- C6: On the script's concrete grid, each of the four second-order
derivative arrays is produced without any zero divisor or illegal power base
(the checked evaluation returns an actual value at every point — the
real-model counterpart of "no NaN/Inf"), and each has length 5, the shape of
the input grid. -/
theorem second_order_arrays_finite :
    (List.zipWith (fun t v => ((pressureExpr.diff Var.T).diff Var.T).evalChecked t v)
        TgridR vgridR = d2TT_L.map some ∧ d2TT_L.length = 5) ∧
      (List.zipWith (fun t v => ((pressureExpr.diff Var.T).diff Var.V).evalChecked t v)
        TgridR vgridR = d2Tv_L.map some ∧ d2Tv_L.length = 5) ∧
      (List.zipWith (fun t v => ((pressureExpr.diff Var.V).diff Var.T).evalChecked t v)
        TgridR vgridR = d2vT_L.map some ∧ d2vT_L.length = 5) ∧
      (List.zipWith (fun t v => ((pressureExpr.diff Var.V).diff Var.V).evalChecked t v)
        TgridR vgridR = d2vv_L.map some ∧ d2vv_L.length = 5) := by
  have hlen : ∀ f : ℝ → ℝ → ℝ, (List.zipWith f TgridR vgridR).length = 5 := by
    intro f; rw [TgridR_eq, vgridR_eq]; rfl
  have key : ∀ x y : Var,
      List.zipWith (fun t v => ((pressureExpr.diff x).diff y).evalChecked t v) TgridR vgridR =
        (List.zipWith (fun t v => ((pressureExpr.diff x).diff y).eval t v) TgridR vgridR).map
          some := by
    intro x y
    rw [zipWith_map_some]
    exact zipWith_congr_of_mem _ _ _ _ fun p hp =>
      evalChecked_eq_eval (safeAt_diff y (safeAt_diff x
        (safeAt_pressureExpr (grid_conditions p hp).1 (grid_conditions p hp).2.1
          (grid_conditions p hp).2.2)))
  exact ⟨⟨key Var.T Var.T, hlen _⟩, ⟨key Var.T Var.V, hlen _⟩,
    ⟨key Var.V Var.T, hlen _⟩, ⟨key Var.V Var.V, hlen _⟩⟩

/-- C7: The gradient operation, as invoked everywhere in the program (always
with `allow_unused` set), never raises on an input that is absent from the
computation graph: it returns an absent (`none`) entry for that input.  The
three program invocations — the first-order pass and both second-order
passes — all use this mode and succeed. -/
theorem grad_tolerates_unused :
    (∀ (e : Expr) (xs : List Var),
        autogradGrad true e xs =
          some (xs.map fun x => if e.usesVar x then some (e.diff x) else none)) ∧
      firstOrderCall =
        some [some (pressureExpr.diff Var.T), some (pressureExpr.diff Var.V)] ∧
      secondOrderCallT =
        some [some ((pressureExpr.diff Var.T).diff Var.T),
          some ((pressureExpr.diff Var.T).diff Var.V)] ∧
      secondOrderCallV =
        some [some ((pressureExpr.diff Var.V).diff Var.T),
          some ((pressureExpr.diff Var.V).diff Var.V)] := by
  refine ⟨autogradGrad_true_eq, ?_, ?_, ?_⟩ <;>
    · simp only [firstOrderCall, secondOrderCallT, secondOrderCallV]
      rw [autogradGrad_true_eq]
      rfl

/-- C8: On a complete run the program writes to standard output exactly, in
order: the numeric pressure array, the differentiable pressure array, the
pressure-equivalence boolean, the first-order derivative arrays `dP/dT` then
`dP/dv`, the two booleans comparing the automatic first derivatives with the
symbolic reference, then the stacked second-order results for `dP/dT` and for
`dP/dv`. -/
theorem program_prints_in_spec_order :
    programOutput =
      [OutItem.arr np_presL, OutItem.arr tc_presL,
       OutItem.flag (allclose tc_presL np_presL),
       OutItem.arr dPdT_L, OutItem.arr dPdv_L,
       OutItem.flag (allclose dPdT_L sym_dPdT_L),
       OutItem.flag (allclose dPdv_L sym_dPdv_L),
       OutItem.mat [d2TT_L, d2Tv_L], OutItem.mat [d2vT_L, d2vv_L]] := rfl

/-- C9: The pressure evaluator is deterministic and stateless: two
evaluations on equal `(T, v)` inputs return identical pressure arrays. -/
theorem pressure_evaluator_deterministic (Ts vs Ts2 vs2 : List ℝ)
    (hT : Ts = Ts2) (hv : vs = vs2) :
    List.zipWith pressure Ts vs = List.zipWith pressure Ts2 vs2 := by
  rw [hT, hv]

/-- Witness for C9: two runs on `T = [300]`, `v = [1e-3]`. -/
theorem pressure_evaluator_deterministic_witness :
    List.zipWith pressure [(300:ℝ)] [(1e-3:ℝ)] =
      List.zipWith pressure [(300:ℝ)] [(1e-3:ℝ)] :=
  pressure_evaluator_deterministic [300] [1e-3] [300] [1e-3] rfl rfl

/-- C10: On every valid grid (`T > 0`, `v > 0`, `v > b` elementwise), the
mixed second partial derivatives produced by the two second-order passes are
equal elementwise: the `v`-derivative of `dP/dT` equals the `T`-derivative of
`dP/dv`. -/
theorem mixed_partials_symmetric (Ts vs : List ℝ)
    (h : ∀ p ∈ Ts.zip vs, 0 < p.1 ∧ 0 < p.2 ∧ 8.09e-5 < p.2) :
    List.zipWith (fun t v => ((pressureExpr.diff Var.T).diff Var.V).eval t v) Ts vs =
      List.zipWith (fun t v => ((pressureExpr.diff Var.V).diff Var.T).eval t v) Ts vs :=
  zipWith_congr_of_mem _ _ _ _ fun p hp =>
    mixed_second_eval (h p hp).1 (h p hp).2.1 (h p hp).2.2

/-- Witness for C10 at `T = [300]`, `v = [1e-3]`. -/
theorem mixed_partials_symmetric_witness :
    List.zipWith (fun t v => ((pressureExpr.diff Var.T).diff Var.V).eval t v)
        [(300:ℝ)] [(1e-3:ℝ)] =
      List.zipWith (fun t v => ((pressureExpr.diff Var.V).diff Var.T).eval t v)
        [(300:ℝ)] [(1e-3:ℝ)] :=
  mixed_partials_symmetric [300] [1e-3] (by
    intro p hp
    simp only [List.zip_cons_cons, List.zip_nil_left, List.mem_cons,
      List.not_mem_nil, or_false] at hp
    subst hp
    norm_num)
